import Mathlib

/-!
Shallow embedding of `src/scripts/ksy.py` (repository cmi-dair/unifti): a
code generator that reads a declarative binary-format schema (Kaitai-style
nested dictionaries) and emits C artifacts (struct declarations, debug
printers, byte-swap routines, enum lookup functions, computed-field
accessors, struct-to-struct converters).

Modelling conventions:
  * Python dictionaries holding schema entries become Lean structures whose
    `Option` fields record key presence; reading an absent required key
    (Python `KeyError`) makes the embedded operation return `none`.
  * Fallible Python code (dict lookups, `assert`, `max([])`, attribute
    access on `None`) is embedded in the `Option` monad: `none` models the
    raised exception.
  * Python string methods that do not reduce well in the kernel
    (`split`, `strip`, `replace`, `int()` parsing) are re-implemented over
    `List Char` with the same semantics.
  * The helper modules `cg` and `utils` are imported by the source
    (`from . import cg, utils`) but are not part of the provided sources;
    the few helpers the claims depend on are modelled from the spec and
    marked as such.  The final assembly of generated text into `cg.CFunc`
    objects is name/indentation glue from the missing `cg` module; the
    generators are therefore embedded at the level of the statement lists /
    row tables that `ksy.py` itself builds.
-/

/-! ## Python string primitives over `List Char` -/

/-- Whitespace test matching Python's `str.strip()` / `str.split()` default
character class (tab, newline, vertical tab, form feed, carriage return,
space). -/
def chIsSpace (c : Char) : Bool :=
  c.toNat = 32 || (9 ≤ c.toNat && c.toNat ≤ 13)

/-- Splitting on every occurrence of a single separator character, keeping
empty pieces: the semantics of Python's `s.split(sep)` with a one-character
separator. -/
def chSplitChar (sep : Char) : List Char → List (List Char)
  | [] => [[]]
  | c :: rest =>
    let r := chSplitChar sep rest
    if c = sep then [] :: r
    else
      match r with
      | [] => [[c]]
      | t :: ts => (c :: t) :: ts

/-- Python `s.split(" ")`: split on each single space, keeping empties. -/
def pySplitSpace (s : String) : List String :=
  (chSplitChar ' ' s.toList).map String.mk

/-- Python `s.strip()`: remove trailing and leading whitespace. -/
def pyStrip (s : String) : String :=
  String.mk (((s.toList.reverse.dropWhile chIsSpace).reverse).dropWhile chIsSpace)

/-- Replace every (non-overlapping, leftmost-first) occurrence of the
pattern `p0 :: prest` by `rep`: the semantics of Python's `s.replace(pat,
rep)` for a non-empty pattern.  Structural recursion on a fuel bounded by
the input length (each step consumes at least one character, so fuel equal
to the input length always suffices); fuel keeps the definition
kernel-reducible. -/
def chReplaceAux (p0 : Char) (prest rep : List Char) : Nat → List Char → List Char
  | 0, l => l
  | _ + 1, [] => []
  | fuel + 1, c :: rest =>
    if (p0 :: prest).isPrefixOf (c :: rest) then
      rep ++ chReplaceAux p0 prest rep fuel (rest.drop prest.length)
    else
      c :: chReplaceAux p0 prest rep fuel rest

def chReplace (p0 : Char) (prest rep l : List Char) : List Char :=
  chReplaceAux p0 prest rep l.length l

/-- Python `s.replace(pat, rep)` (for empty `pat`, Python inserts `rep`
around every character; the source only replaces the non-empty pattern
`" *"`, so the empty-pattern case is modelled as the identity). -/
def pyReplace (s pat rep : String) : String :=
  match pat.toList with
  | [] => s
  | p0 :: prest => String.mk (chReplace p0 prest rep.toList s.toList)

/-- Decimal digit test (kernel-reducible). -/
def chIsDigit (c : Char) : Bool :=
  48 ≤ c.toNat && c.toNat ≤ 57

/-- Hexadecimal digit test. -/
def chIsHexDigit (c : Char) : Bool :=
  chIsDigit c || (97 ≤ c.toNat && c.toNat ≤ 102) || (65 ≤ c.toNat && c.toNat ≤ 70)

/-- Numeric value of one hexadecimal digit. -/
def chHexVal (c : Char) : Nat :=
  if chIsDigit c then c.toNat - 48
  else if 97 ≤ c.toNat && c.toNat ≤ 102 then c.toNat - 87
  else c.toNat - 55

/-- Value of a list of decimal digits. -/
def chDecVal (l : List Char) : Nat :=
  l.foldl (fun acc c => acc * 10 + (c.toNat - 48)) 0

/-- Value of a list of hexadecimal digits. -/
def chHexListVal (l : List Char) : Nat :=
  l.foldl (fun acc c => acc * 16 + chHexVal c) 0

/-- Parse a non-empty all-digit character list as a natural number: the
semantics of Python's `int(s)` on the inputs the source feeds it (the
numeric suffix of a primitive type tag). -/
def chParseNat (l : List Char) : Option Nat :=
  if !l.isEmpty && l.all chIsDigit then some (chDecVal l) else none

/-! ## Modelled glue from the missing `cg` module -/

/-- Modelled from the spec: `cg.cn_arg` from the missing `cg` helper module
("implicit global formatting state (name-prefixing conventions)", spec §9).
The spec does not fix the prefixing convention, so the argument name is
modelled as the struct name itself; no claim settled here depends on the
chosen convention. -/
def cn_arg (name : String) : String := name

/-- Modelled from the spec: `cg.cn_func_name` from the missing `cg` helper
module, same situation as `cn_arg`: modelled as the identity on the name. -/
def cn_func_name (name : String) : String := name

/-! ## Type mapping tables (`KSY2C_TYPE`, `KSY2C_FPRINT`,
`KSY_BYTESWAPPABLE` in the source); a Python dict lookup of an unmapped tag
raises `KeyError`, embedded as `none`. -/

def KSY2C_TYPE (t : String) : Option String :=
  if t = "s1" then some "int8_t"
  else if t = "u1" then some "uint8_t"
  else if t = "s2" then some "int16_t"
  else if t = "u2" then some "uint16_t"
  else if t = "s4" then some "int32_t"
  else if t = "u4" then some "uint32_t"
  else if t = "s8" then some "int64_t"
  else if t = "u8" then some "uint64_t"
  else if t = "f4" then some "float"
  else if t = "f8" then some "double"
  else none

def KSY2C_FPRINT (t : String) : Option String :=
  if t = "s1" then some "%i"
  else if t = "u1" then some "%u"
  else if t = "s2" then some "%i"
  else if t = "u2" then some "%u"
  else if t = "s4" then some "%i"
  else if t = "u4" then some "%u"
  else if t = "s8" then some "%li"
  else if t = "u8" then some "%lu"
  else if t = "f4" then some "%f"
  else if t = "f8" then some "%f"
  else none

def KSY_BYTESWAPPABLE : List String :=
  ["s1", "u1", "s2", "u2", "s4", "u4", "s8", "u8", "f4", "f8"]

/-! ## Enum model (`KsyEnumValue`, `KsyEnum` in the source) -/

structure KsyEnumValue where
  name : String
  var : String
  value : Int
  doc : Option String := none
deriving DecidableEq, Repr

structure KsyEnum where
  name : String
  values : List KsyEnumValue
deriving DecidableEq, Repr

/-- Structure-level embedding of the reverse-lookup function emitted by
`KsyEnum.cdynamic_from_name`: a null guard returning `nullGuard`, then a
chain of `strcmp`-equality tests (name, returned value) in emission order,
then a fallthrough `return fallback;`.  The textual body wraps each test in
`if`/`else if` lines through the missing `cg` module's naming helpers. -/
structure CFromName where
  nullGuard : Int
  tests : List (String × Int)
  fallback : Int
deriving DecidableEq, Repr

/-- Embedding of `KsyEnum.cdynamic_from_name` (`ksy.py` lines 119-138):
the body first guards `NULL` with `return -1`, then emits an `if` test
against `self.values[0]` (raising `IndexError`, i.e. `none`, when the enum
has no values), then one `else if` test for every value of `self.values`
(the first value included a second time), then `return -1;`. -/
def KsyEnum.cdynamic_from_name (e : KsyEnum) : Option CFromName :=
  match e.values with
  | [] => none
  | v0 :: rest =>
    some
      { nullGuard := -1
        tests := (v0.var, v0.value) :: (v0 :: rest).map (fun v => (v.var, v.value))
        fallback := -1 }

/-- Runtime semantics of the generated reverse-lookup chain: `none` models
a `NULL` argument; otherwise the first matching `strcmp` test returns its
value, and the fallthrough returns `fallback`. -/
def CFromName.eval (fn : CFromName) : Option String → Int
  | none => fn.nullGuard
  | some s =>
    match fn.tests.find? (fun t => t.1 = s) with
    | some t => t.2
    | none => fn.fallback

/-! ## Struct field model (`KsyStructField` in the source) -/

/-- One entry of a `seq` list in the schema dictionary: `Option` fields
record the presence of the corresponding dictionary key.  The source only
ever tests the presence of the `repeat` key (never reads its value), hence
`hasRepeat : Bool`; the `repeat-expr` value is a repetition count. -/
structure KsyFieldEntry where
  id : String
  type : Option String := none
  size : Option Nat := none
  hasRepeat : Bool := false
  repeatExpr : Option Nat := none
  enum : Option String := none
  doc : Option String := none
deriving DecidableEq, Repr

structure KsyStructField where
  name : String
  type : String
  str_len : Option Nat := none
  arr_len : Option Nat := none
  enum : Option String := none
  doc : Option String := none
deriving DecidableEq, Repr

/-- Embedding of `KsyStructField.__init__` (`ksy.py` lines 168-181).
Reading an absent `size` / `repeat-expr` key raises `KeyError` in Python,
embedded as `none`.  No branch inspects whether the stored type tag is
recognized. -/
def KsyStructField.ofEntry (e : KsyFieldEntry) : Option KsyStructField :=
  let ty := e.type.getD "u1"
  if e.type.isNone then
    e.size.map fun sz =>
      { name := e.id, type := ty, arr_len := some sz, enum := e.enum, doc := e.doc }
  else if ty = "str" then
    e.size.map fun sz =>
      { name := e.id, type := ty, str_len := some sz, enum := e.enum, doc := e.doc }
  else if e.hasRepeat then
    e.repeatExpr.map fun r =>
      { name := e.id, type := ty, arr_len := some r, enum := e.enum, doc := e.doc }
  else
    some { name := e.id, type := ty, enum := e.enum, doc := e.doc }

/-- Python's `str(x)` on an `Optional[int]`: `None` renders as `"None"`
inside an f-string. -/
def pyOptRepr : Option Nat → String
  | some n => toString n
  | none => "None"

/-- Embedding of `KsyStructField.cdef` (`ksy.py` lines 183-189); the type
table lookup raises `KeyError` (`none`) for an unmapped tag. -/
def KsyStructField.cdef (f : KsyStructField) : Option String :=
  if f.type = "str" then
    some ("char " ++ f.name ++ "[" ++ pyOptRepr f.str_len ++ "]")
  else
    match f.arr_len with
    | some k => (KSY2C_TYPE f.type).map fun t => t ++ " " ++ f.name ++ "[" ++ toString k ++ "]"
    | none => (KSY2C_TYPE f.type).map fun t => t ++ " " ++ f.name

/-- Embedding of `KsyStructField.ctype` (`ksy.py` lines 191-197). -/
def KsyStructField.ctype (f : KsyStructField) : Option String :=
  if f.type = "str" then some "char *"
  else
    match f.arr_len with
    | some _ => (KSY2C_TYPE f.type).map fun t => t ++ " *"
    | none => KSY2C_TYPE f.type

/-- Embedding of `KsyStructField.ctype_fprint` (`ksy.py` lines 199-208):
enum fields first, then strings, then arrays (a comma-joined list built
from `range(arr_len)`), then scalars. -/
def KsyStructField.ctype_fprint (f : KsyStructField) : Option String :=
  if f.enum.isSome then some "%s (%i)"
  else if f.type = "str" then some ("'%." ++ pyOptRepr f.str_len ++ "s'")
  else
    match f.arr_len with
    | some k =>
      (KSY2C_FPRINT f.type).map fun sp =>
        "[ " ++ String.intercalate ", " ((List.range k).map fun _ => sp) ++ " ]"
    | none => KSY2C_FPRINT f.type

/-- Embedding of `KsyStructField.needs_byteswap` (`ksy.py` lines 210-211). -/
def KsyStructField.needs_byteswap (f : KsyStructField) : Bool :=
  f.type ∈ KSY_BYTESWAPPABLE

/-- Embedding of `KsyStructField.nbytes` (`ksy.py` lines 213-214):
`int(self.type[1:])`, `none` when the suffix is not numeric (Python would
raise `ValueError`). -/
def KsyStructField.nbytes (f : KsyStructField) : Option Nat :=
  chParseNat (f.type.toList.drop 1)

/-! ## Computed field model (`KsyStructCompField` in the source) -/

/-- One entry of an `instances` mapping in the schema dictionary. -/
structure KsyCompEntry where
  enum : Option String := none
  value : Option String := none
deriving DecidableEq, Repr

structure KsyStructCompField where
  name : String
  enum : Option String := none
  expr : Option String := none
deriving DecidableEq, Repr

/-- Embedding of `KsyStructCompField.__init__` (`ksy.py` lines 223-228):
`enum` and `expr` are set only when the corresponding key is present; in
particular an entry without a `value` key leaves `expr` absent. -/
def KsyStructCompField.ofEntry (n : String) (e : KsyCompEntry) : KsyStructCompField :=
  { name := n, enum := e.enum, expr := e.value }

/-- Embedding of `KsyStructCompField.ctype_fprint` (`ksy.py` lines 230-234). -/
def KsyStructCompField.ctype_fprint (c : KsyStructCompField) : String :=
  if c.enum.isSome then "%s (%i)" else "%i"

/-! ## `is_int_literal` / `int_literal` from the missing `utils` module -/

/-- Modelled from the spec: `utils.is_int_literal` from the missing `utils`
module.  Spec §4.4: an integer literal is "decimal, hex with `0x` prefix,
or a quoted single character yielding its code point — exact literal
grammar is an external collaborator's responsibility". -/
def is_int_literal (s : String) : Bool :=
  let l := s.toList
  (!l.isEmpty && l.all chIsDigit) ||
  (l.take 2 = ['0', 'x'] && !(l.drop 2).isEmpty && (l.drop 2).all chIsHexDigit) ||
  (l.length = 3 && l.head? = some (Char.ofNat 39) && l.getLast? = some (Char.ofNat 39))

/-- Modelled from the spec: `utils.int_literal` from the missing `utils`
module, the value of a literal recognized by `is_int_literal` (`0` on
unrecognized input, on which the source never calls it). -/
def int_literal (s : String) : Nat :=
  let l := s.toList
  if !l.isEmpty && l.all chIsDigit then chDecVal l
  else if l.take 2 = ['0', 'x'] then chHexListVal (l.drop 2)
  else
    match l with
    | [_, c, _] => c.toNat
    | _ => 0

/-! ## Struct model (`KsyStruct` in the source) -/

/-- The `types[name]` schema dictionary together with its name: a `seq`
list of field entries and an `instances` mapping (name, entry). -/
structure KsyStruct where
  name : String
  seq : List KsyFieldEntry
  instances : List (String × KsyCompEntry)
deriving DecidableEq, Repr

/-- Error-propagating map: the embedding of a Python `for` loop over a
generator whose body may raise (the first raised exception aborts the
whole traversal). -/
def mapOpt (g : α → Option β) : List α → Option (List β)
  | [] => some []
  | a :: l => do
    let b ← g a
    let bs ← mapOpt g l
    pure (b :: bs)

/-- Embedding of `KsyStruct.iter_fields` (`ksy.py` lines 256-258): each
`seq` entry is constructed into a `KsyStructField`; a malformed entry
raises (`none`). -/
def KsyStruct.iter_fields (s : KsyStruct) : Option (List KsyStructField) :=
  mapOpt KsyStructField.ofEntry s.seq

/-- Embedding of `KsyStruct.iter_comp_fields` (`ksy.py` lines 260-262). -/
def KsyStruct.iter_comp_fields (s : KsyStruct) : List KsyStructCompField :=
  s.instances.map fun p => KsyStructCompField.ofEntry p.1 p.2

/-- Embedding of `KsyStructCompField.cexpr` (`ksy.py` lines 236-247):
`self.expr.split(" ")` raises when `expr` is absent (`none`); each token is
rewritten to a member accessor when it names a sequence field, else to its
integer-literal value, else passed through verbatim; every rewritten token
is followed by one space and the result is finally `strip()`-ped.
Evaluating the sequence-field name list re-runs field construction, which
raises (`none`) on a malformed `seq` entry. -/
def KsyStructCompField.cexpr (c : KsyStructCompField) (s : KsyStruct) : Option String := do
  let e ← c.expr
  let fields ← s.iter_fields
  let names := fields.map KsyStructField.name
  let toks := pySplitSpace e
  let joined := toks.foldl
    (fun acc tok =>
      acc ++
        (if tok ∈ names then cn_arg s.name ++ "->" ++ tok
         else if is_int_literal tok then toString (int_literal tok)
         else tok) ++
        " ")
    ""
  pure (pyStrip joined)

/-- Token classification used by `cexpr`, factored for specification:
field name, else integer literal, else verbatim. -/
def classify_token (structArg : String) (names : List String) (tok : String) : String :=
  if tok ∈ names then structArg ++ "->" ++ tok
  else if is_int_literal tok then toString (int_literal tok)
  else tok

/-- Python `s.split()` with no argument: split on whitespace runs,
discarding empty tokens. -/
def pySplitWhitespace (s : String) : List String :=
  ((s.toList.splitBy (fun a b => !chIsSpace a && !chIsSpace b)).filter
      (fun t => !t.all chIsSpace)).map String.mk

/-- Modelled from the spec wording of claim C6 / spec §4.4 ("tokenizes the
stored expression string on whitespace"): identical to
`KsyStructCompField.cexpr` except that the expression is tokenized on
whitespace rather than on the single space character. -/
def KsyStructCompField.cexprSpecWhitespace (c : KsyStructCompField) (s : KsyStruct) :
    Option String := do
  let e ← c.expr
  let fields ← s.iter_fields
  let names := fields.map KsyStructField.name
  let toks := pySplitWhitespace e
  let joined := toks.foldl
    (fun acc tok => acc ++ classify_token (cn_arg s.name) names tok ++ " ") ""
  pure (pyStrip joined)

/-! ## Debug printer generator (`build_print_struct`, `ksy.py` lines
265-322).  The enum rows additionally accumulate a lookup-variable
declaration into a body-prefix text assembled through the missing `cg`
module; the claims are about the row table and its success/failure, which
the embedding keeps. -/

/-- One row of the printer's `print_table`: `(pt_name, pt_value, pt_args)`. -/
structure PrintRow where
  label : String
  frag : String
  args : List String
deriving DecidableEq, Repr

/-- Row built for one sequence field (`ksy.py` lines 275-295): fragment
from `ctype_fprint` (raising, i.e. `none`, on an unmapped tag); arrays list
their indexed elements, enum fields pass the resolved-name-or-unknown
expression and the raw value, scalars pass the member access. -/
def print_row_of_field (structName : String) (f : KsyStructField) : Option PrintRow := do
  let frag ← f.ctype_fprint
  let acc := cn_arg structName ++ "->" ++ f.name
  let args :=
    match f.arr_len with
    | some k => (List.range k).map fun i => acc ++ "[" ++ toString i ++ "]"
    | none =>
      match f.enum with
      | some en =>
        let lookupVar := en ++ "_" ++ f.name
        ["(" ++ lookupVar ++ " == NULL ? \"<unknown>\" : " ++ lookupVar ++ ")", acc]
      | none => [acc]
  pure { label := f.name, frag := frag, args := args }

/-- Row built for one computed field (`ksy.py` lines 297-312): label
`*name`, access through the generated accessor function, enum fields
additionally pass the resolved-name-or-unknown expression first. -/
def print_row_of_comp (structName : String) (c : KsyStructCompField) : PrintRow :=
  let acc := cn_func_name (structName ++ "_" ++ c.name) ++ "(" ++ cn_arg structName ++ ")"
  let args :=
    match c.enum with
    | some en =>
      let lookupVar := en ++ "_" ++ c.name
      ["(" ++ lookupVar ++ " == NULL ? \"<unknown>\" : " ++ lookupVar ++ ")", acc]
    | none => [acc]
  { label := "*" ++ c.name, frag := c.ctype_fprint, args := args }

/-- Python `max(list_of_ints)`: raises `ValueError` (`none`) on an empty
list. -/
def pyMax : List Nat → Option Nat
  | [] => none
  | a :: l => some (l.foldl Nat.max a)

/-- Python `s.ljust(n)`: pad on the right with spaces to width `n`. -/
def ljust (s : String) (n : Nat) : String :=
  s ++ String.mk (List.replicate (n - s.length) ' ')

/-- Embedding of `build_print_struct` (`ksy.py` lines 265-322): build the
row table (sequence-field rows in declaration order, then computed-field
rows in declaration order), take the maximum label width over the table
(`max` raising on an empty table, line 314), then emit one format line per
row (`"{label.ljust(max)} : {frag}\n"` with a literal backslash-n) with its
argument list. -/
def build_print_struct (s : KsyStruct) : Option (List (String × List String)) := do
  let fs ← s.iter_fields
  let seqRows ← mapOpt (print_row_of_field s.name) fs
  let rows := seqRows ++ (s.iter_comp_fields).map (print_row_of_comp s.name)
  let maxKeyLen ← pyMax (rows.map fun r => r.label.length)
  pure (rows.map fun r => (ljust r.label maxKeyLen ++ " : " ++ r.frag ++ "\\n", r.args))

/-! ## Byte-swap generator (`build_byteswap_struct`, `ksy.py` lines
325-357).  The body is a concatenation of per-field chunks; each chunk is
either a `for`-loop over the array length applying `bswap{w*8}` to every
element, or a single `bswap{w*8}` assignment.  The embedding keeps the
statement list; the textual wrapping (indentation via `cg.cindent`)
belongs to the missing `cg` module. -/

inductive SwapStmt where
  | loop (field : String) (len : Nat) (bits : Nat)
  | scalar (field : String) (bits : Nat)
deriving DecidableEq, Repr

def SwapStmt.fieldName : SwapStmt → String
  | .loop f _ _ => f
  | .scalar f _ => f

/-- Number of element-wise swap operations the statement performs at
runtime: the loop's trip count, or one for a scalar assignment. -/
def SwapStmt.elemSwaps : SwapStmt → Nat
  | .loop _ k _ => k
  | .scalar _ _ => 1

/-- Per-field contribution to the byte-swap body (`ksy.py` lines 332-351):
skip fields that are not byte-swappable (`continue`), skip one-byte fields
(`continue`), emit a loop for array fields and a single assignment
otherwise, both using the `bswap{nbytes*8}` primitive.  The `none` arm of
`nbytes` is unreachable for the ten swappable tags, whose suffixes all
parse (Python would raise there). -/
def swap_stmt_of_field (f : KsyStructField) : Option SwapStmt :=
  if f.needs_byteswap then
    match f.nbytes with
    | none => none
    | some nb =>
      if nb = 1 then none
      else
        match f.arr_len with
        | some k => some (.loop f.name k (nb * 8))
        | none => some (.scalar f.name (nb * 8))
  else none

/-- Embedding of `build_byteswap_struct` (`ksy.py` lines 325-357): the
emitted statements are the per-field contributions in field declaration
order. -/
def build_byteswap_struct (s : KsyStruct) : Option (List SwapStmt) := do
  let fs ← s.iter_fields
  pure (fs.filterMap swap_stmt_of_field)

/-! ## Computed-field accessor generator (`build_comp_field_funcs`,
`ksy.py` lines 378-392). -/

structure CompFunc where
  name : String
  body : String
deriving DecidableEq, Repr

/-- Embedding of `build_comp_field_funcs`: one function per computed field,
named from the struct and field names, whose body returns the translated
expression; a failing `cexpr` aborts the generation. -/
def build_comp_field_funcs (s : KsyStruct) : Option (List CompFunc) :=
  mapOpt
    (fun c => do
      let e ← c.cexpr s
      pure
        { name := cn_func_name (s.name ++ "_" ++ c.name)
          body := "return " ++ e ++ ";" })
    s.iter_comp_fields

/-! ## Struct-to-struct converter generator (`convert_struct`, `ksy.py`
lines 395-431).  The generated body is the caller-supplied body-prefix text
followed by the emitted copy statements in nested-loop order and a final
`return 1;`; the embedding keeps the copy-statement list (each statement
tagged with the field name it copies, plus its rendered C text). -/

structure ConvStmt where
  field : String
  text : String
deriving DecidableEq, Repr

/-- The cast text computed before the branch (`ksy.py` lines 412-413):
empty when the two external types are equal, else `(dest_ctype) ` with any
`" *"` removed; the `ctype` calls raise (`none`) on an unmapped tag. -/
def conv_cast (sf df : KsyStructField) : Option String := do
  let st ← sf.ctype
  let dt ← df.ctype
  let c := if st = dt then "" else "(" ++ dt ++ ") "
  pure (pyReplace c " *" "")

/-- Copy statement for one matched (source, destination) field pair
(`ksy.py` lines 409-422): array fields assert equal array lengths and emit
an element-copy loop; string fields assert equal string lengths and emit a
`memcpy`; otherwise a direct cast assignment is emitted.  A failing
`assert` aborts generation (`none`). -/
def conv_stmt (argSrc argDest : String) (sf df : KsyStructField) : Option ConvStmt := do
  let srcAcc := argSrc ++ "->" ++ sf.name
  let destAcc := argDest ++ "->" ++ df.name
  let cast ← conv_cast sf df
  match sf.arr_len with
  | some k =>
    if df.arr_len = some k then
      some
        { field := sf.name
          text := "\nfor (int i = 0; i < " ++ toString k ++ "; ++i) \x7b " ++ destAcc ++
            "[i] = " ++ cast ++ srcAcc ++ "[i]; \x7d" }
    else none
  | none =>
    match sf.str_len with
    | some n =>
      if df.str_len = some n then
        some
          { field := sf.name
            text := "\nmemcpy(" ++ destAcc ++ ", " ++ srcAcc ++ ", " ++ toString n ++ ");" }
      else none
    | none =>
      some { field := sf.name, text := "\n" ++ destAcc ++ " = " ++ cast ++ srcAcc ++ ";" }

/-- Inner loop of `convert_struct` over the destination fields for a fixed
source field: a statement is emitted exactly for the destination fields
with the same name, when that name is not in the skip list. -/
def conv_dest_loop (argSrc argDest : String) (skip : List String) (sf : KsyStructField) :
    List KsyStructField → Option (List ConvStmt)
  | [] => some []
  | df :: rest =>
    if sf.name = df.name ∧ sf.name ∉ skip then do
      let st ← conv_stmt argSrc argDest sf df
      let tail ← conv_dest_loop argSrc argDest skip sf rest
      pure (st :: tail)
    else conv_dest_loop argSrc argDest skip sf rest

/-- Outer loop of `convert_struct` over the source fields.  The source
re-creates the destination field iterator inside the outer loop
(`struct_dest.iter_fields()` on line 407), so a malformed destination `seq`
only raises once the outer loop runs at least one iteration. -/
def conv_src_loop (argSrc argDest : String) (skip : List String) (dest : KsyStruct) :
    List KsyStructField → Option (List ConvStmt)
  | [] => some []
  | sf :: rest => do
    let dfs ← dest.iter_fields
    let a ← conv_dest_loop argSrc argDest skip sf dfs
    let b ← conv_src_loop argSrc argDest skip dest rest
    pure (a ++ b)

/-- Embedding of `convert_struct` (`ksy.py` lines 395-431), kept at the
level of the emitted copy-statement list (the generated function wraps the
caller's body-prefix text, these statements, and `return 1;`). -/
def convert_struct_stmts (src dest : KsyStruct) (skip : List String) :
    Option (List ConvStmt) := do
  let sfs ← src.iter_fields
  conv_src_loop (cn_arg src.name) (cn_arg dest.name) skip dest sfs

/-- Number of occurrences (overlapping counted) of a non-empty pattern as a
contiguous substring, used to state that a print-format fragment contains a
given number of repetitions of a format specifier. -/
def countOccs (pat : List Char) : List Char → Nat
  | [] => 0
  | c :: rest => (if pat.isPrefixOf (c :: rest) then 1 else 0) + countOccs pat rest

/-- Concatenation of a list of strings in order (used to state how the
per-token pieces of a computed-field expression are reassembled). -/
def concatAll : List String → String
  | [] => ""
  | x :: xs => x ++ concatAll xs

/-! ## Helper lemmas -/

theorem mapOpt_nil (g : α → Option β) : mapOpt g [] = some [] := rfl

theorem mapOpt_cons (g : α → Option β) (a : α) (l : List α) :
    mapOpt g (a :: l) = (g a).bind fun b => (mapOpt g l).bind fun bs => some (b :: bs) := rfl

theorem mapOpt_length (g : α → Option β) :
    ∀ {l : List α} {l' : List β}, mapOpt g l = some l' → l'.length = l.length := by
  intro l
  induction l with
  | nil => intro l' h; cases h; rfl
  | cons a rest ih =>
    intro l' h
    rw [mapOpt_cons, Option.bind_eq_some] at h
    obtain ⟨b, _, h⟩ := h
    rw [Option.bind_eq_some] at h
    obtain ⟨bs, hbs, h⟩ := h
    cases h
    simp [ih hbs]

theorem mapOpt_eq_none_of_mem {g : α → Option β} {x : α} {l : List α}
    (hx : x ∈ l) (hg : g x = none) : mapOpt g l = none := by
  induction l with
  | nil => cases hx
  | cons a rest ih =>
    rw [mapOpt_cons]
    rcases List.mem_cons.mp hx with rfl | hmem
    · rw [hg]; rfl
    · cases hga : g a with
      | none => rfl
      | some b => simp [ih hmem]

theorem mapOpt_isSome_of_forall {g : α → Option β} :
    ∀ {l : List α}, (∀ x ∈ l, (g x).isSome = true) → ∃ l', mapOpt g l = some l' := by
  intro l
  induction l with
  | nil => exact fun _ => ⟨[], rfl⟩
  | cons a rest ih =>
    intro h
    obtain ⟨b, hb⟩ := Option.isSome_iff_exists.mp (h a (List.mem_cons_self a rest))
    obtain ⟨bs, hbs⟩ := ih fun x hx => h x (List.mem_cons_of_mem a hx)
    exact ⟨b :: bs, by rw [mapOpt_cons, hb, hbs]; rfl⟩

theorem countP_eq_ite_of_nodup_map [DecidableEq β] (g : α → β) (a : β) :
    ∀ {l : List α}, (l.map g).Nodup →
      l.countP (fun x => g x = a) = if a ∈ l.map g then 1 else 0 := by
  intro l
  induction l with
  | nil => intro _; simp
  | cons x rest ih =>
    intro h
    rw [List.map_cons, List.nodup_cons] at h
    obtain ⟨hx, hrest⟩ := h
    rw [List.countP_cons, ih hrest, List.map_cons]
    by_cases hg : g x = a
    · have hna : a ∉ rest.map g := hg ▸ hx
      simp [hna, hg]
    · simp only [List.mem_cons]
      have : ¬a = g x := fun hh => hg hh.symm
      simp [hg, this]

theorem find?_map_eq (g : α → β) (p : β → Bool) :
    ∀ (l : List α), (l.map g).find? p = (l.find? fun x => p (g x)).map g := by
  intro l
  induction l with
  | nil => rfl
  | cons x rest ih =>
    simp only [List.map_cons, List.find?_cons]
    cases hp : p (g x) with
    | true => simp [hp]
    | false => simp [hp, ih]

theorem find?_eq_some_self_of_nodup_map [DecidableEq β] (g : α → β) {v : α} :
    ∀ {l : List α}, (l.map g).Nodup → v ∈ l →
      (l.find? fun x => g x = g v) = some v := by
  intro l
  induction l with
  | nil => intro _ hv; cases hv
  | cons x rest ih =>
    intro hn hv
    rw [List.map_cons, List.nodup_cons] at hn
    obtain ⟨hx, hrest⟩ := hn
    by_cases hg : g x = g v
    · have : x = v := by
        rcases List.mem_cons.mp hv with rfl | hmem
        · rfl
        · exact absurd (hg ▸ List.mem_map_of_mem g hmem) hx
      rw [List.find?_cons_of_pos _ (by simp [hg]), this]
    · have hmem : v ∈ rest := by
        rcases List.mem_cons.mp hv with rfl | hmem
        · exact absurd rfl hg
        · exact hmem
      rw [List.find?_cons_of_neg _ (by simp [hg]), ih hrest hmem]

theorem conv_stmt_field {argSrc argDest : String} {sf df : KsyStructField} {st : ConvStmt}
    (h : conv_stmt argSrc argDest sf df = some st) : st.field = sf.name := by
  unfold conv_stmt at h
  simp only [Option.bind_eq_bind, Option.bind_eq_some] at h
  obtain ⟨c, _, h⟩ := h
  split at h
  · split at h
    · cases h; rfl
    · cases h
  · split at h
    · split at h
      · cases h; rfl
      · cases h
    · cases h; rfl

theorem conv_dest_count (argSrc argDest : String) (skip : List String) (sf : KsyStructField)
    (f : String) :
    ∀ {dfs : List KsyStructField} {l : List ConvStmt},
      conv_dest_loop argSrc argDest skip sf dfs = some l →
      l.countP (fun st => st.field = f) =
        if f = sf.name ∧ sf.name ∉ skip then
          dfs.countP (fun df => df.name = sf.name)
        else 0 := by
  intro dfs
  induction dfs with
  | nil =>
    intro l h
    cases h
    simp only [List.countP_nil]
    split <;> simp
  | cons df rest ih =>
    intro l h
    unfold conv_dest_loop at h
    split at h
    case isTrue hcond =>
      simp only [Option.bind_eq_bind, Option.bind_eq_some, Option.pure_def,
        Option.some.injEq] at h
      obtain ⟨st, hst, tail, htail, h⟩ := h
      subst h
      obtain ⟨hname, hskip⟩ := hcond
      have hfield := conv_stmt_field hst
      rw [List.countP_cons, ih htail, List.countP_cons]
      by_cases hf : f = sf.name
      · simp [hf, hskip, hfield, hname.symm]
      · have : ¬(f = sf.name ∧ sf.name ∉ skip) := fun hh => hf hh.1
        have hne : ¬sf.name = f := fun hh => hf hh.symm
        simp [this, hfield, hf, hne]
    case isFalse hcond =>
      rw [ih h, List.countP_cons]
      by_cases hc2 : f = sf.name ∧ sf.name ∉ skip
      · obtain ⟨hf, hskip⟩ := hc2
        have hne : ¬df.name = sf.name := fun hh => hcond ⟨hh.symm, hskip⟩
        simp [hf, hskip, hne]
      · simp [hc2]

theorem conv_src_count (argSrc argDest : String) (skip : List String) (dest : KsyStruct)
    (dfs : List KsyStructField) (f : String) (hd : dest.iter_fields = some dfs) :
    ∀ {sfs : List KsyStructField} {l : List ConvStmt},
      conv_src_loop argSrc argDest skip dest sfs = some l →
      l.countP (fun st => st.field = f) =
        if f ∈ skip then 0
        else sfs.countP (fun sf => sf.name = f) * dfs.countP (fun df => df.name = f) := by
  intro sfs
  induction sfs with
  | nil =>
    intro l h
    cases h
    simp only [List.countP_nil]
    split <;> simp
  | cons sf rest ih =>
    intro l h
    unfold conv_src_loop at h
    rw [hd] at h
    simp only [Option.bind_eq_bind, Option.some_bind, Option.bind_eq_some, Option.pure_def,
      Option.some.injEq] at h
    obtain ⟨a, ha, b, hb, h⟩ := h
    subst h
    rw [List.countP_append, conv_dest_count argSrc argDest skip sf f ha, ih hb,
      List.countP_cons]
    by_cases hskip : f ∈ skip
    · have : ¬(f = sf.name ∧ sf.name ∉ skip) := fun hh => (hh.1 ▸ hh.2) hskip
      simp [hskip, this]
    · by_cases hf : f = sf.name
      · subst hf
        simp [hskip]
        ring
      · have : ¬(f = sf.name ∧ sf.name ∉ skip) := fun hh => hf hh.1
        have hne : ¬sf.name = f := fun hh => hf hh.symm
        simp [this, hskip, hne]

/-! ## Claim theorems -/

/-- C1: for every source struct, destination struct and skip list given to
`convert_struct`, each field name present (under per-struct unique field
names, as C struct members require) in both structs and not in the skip
list produces exactly one copy statement in the generated body, and a name
absent from one of the two structs or present in the skip list produces
none. -/
theorem convert_struct_copy_stmt_count
    (src dest : KsyStruct) (skip : List String) (f : String)
    (sfs dfs : List KsyStructField) (stmts : List ConvStmt)
    (hs : src.iter_fields = some sfs) (hd : dest.iter_fields = some dfs)
    (hns : (sfs.map KsyStructField.name).Nodup)
    (hnd : (dfs.map KsyStructField.name).Nodup)
    (hok : convert_struct_stmts src dest skip = some stmts) :
    stmts.countP (fun st => st.field = f) =
      if f ∈ sfs.map KsyStructField.name ∧ f ∈ dfs.map KsyStructField.name ∧ f ∉ skip
      then 1 else 0 := by
  unfold convert_struct_stmts at hok
  rw [hs] at hok
  simp only [Option.bind_eq_bind, Option.some_bind] at hok
  rw [conv_src_count _ _ _ _ _ f hd hok]
  rw [countP_eq_ite_of_nodup_map KsyStructField.name f hns,
    countP_eq_ite_of_nodup_map KsyStructField.name f hnd]
  by_cases h1 : f ∈ sfs.map KsyStructField.name <;>
    by_cases h2 : f ∈ dfs.map KsyStructField.name <;>
    by_cases h3 : f ∈ skip <;>
    simp [h1, h2, h3]

/-- C1 witness: a concrete source struct (scalar `a : u4`, array
`p : u4[4]`, string `t : str[8]`), destination struct (`a : u8`, same `p`
and `t`) and skip list `["t"]`; the generation succeeds and the shared,
unskipped field `a` produces exactly one copy statement. -/
theorem convert_struct_copy_stmt_count_witness :
    convert_struct_stmts
        { name := "n1",
          seq := [{ id := "a", type := some "u4" },
                  { id := "p", type := some "u4", hasRepeat := true, repeatExpr := some 4 },
                  { id := "t", type := some "str", size := some 8 }],
          instances := [] }
        { name := "n2",
          seq := [{ id := "a", type := some "u8" },
                  { id := "p", type := some "u4", hasRepeat := true, repeatExpr := some 4 },
                  { id := "t", type := some "str", size := some 8 }],
          instances := [] }
        ["t"] =
      some [{ field := "a", text := "\nn2->a = (uint64_t) n1->a;" },
            { field := "p", text := "\nfor (int i = 0; i < 4; ++i) \x7b n2->p[i] = n1->p[i]; \x7d" }] ∧
    List.countP (fun st => st.field = "a")
        [({ field := "a", text := "\nn2->a = (uint64_t) n1->a;" } : ConvStmt),
         { field := "p", text := "\nfor (int i = 0; i < 4; ++i) \x7b n2->p[i] = n1->p[i]; \x7d" }] = 1 := by
  constructor
  · decide
  · have h := convert_struct_copy_stmt_count
      { name := "n1",
        seq := [{ id := "a", type := some "u4" },
                { id := "p", type := some "u4", hasRepeat := true, repeatExpr := some 4 },
                { id := "t", type := some "str", size := some 8 }],
        instances := [] }
      { name := "n2",
        seq := [{ id := "a", type := some "u8" },
                { id := "p", type := some "u4", hasRepeat := true, repeatExpr := some 4 },
                { id := "t", type := some "str", size := some 8 }],
        instances := [] }
      ["t"] "a"
      [{ name := "a", type := "u4" },
       { name := "p", type := "u4", arr_len := some 4 },
       { name := "t", type := "str", str_len := some 8 }]
      [{ name := "a", type := "u8" },
       { name := "p", type := "u4", arr_len := some 4 },
       { name := "t", type := "str", str_len := some 8 }]
      [{ field := "a", text := "\nn2->a = (uint64_t) n1->a;" },
       { field := "p", text := "\nfor (int i = 0; i < 4; ++i) \x7b n2->p[i] = n1->p[i]; \x7d" }]
      (by decide) (by decide) (by decide) (by decide) (by decide)
    exact h.trans (by decide)

/-- C2 counterexample: `KsyStructField.__init__` performs no validation of
the type tag, so constructing a field whose tag `"q4"` is neither one of
the ten numeric tags nor the string tag succeeds (the claim asserts it is
a construction error). -/
theorem structField_construction_accepts_unknown_tag :
    KsyStructField.ofEntry { id := "x", type := some "q4" } =
      some { name := "x", type := "q4" } ∧
    "q4" ∉ KSY_BYTESWAPPABLE ∧ ("q4" : String) ≠ "str" := by
  decide

/-- C2 (amended): construction stores an unrecognized tag without failing;
the hard failure (with no silent default) is deferred to the derivations
that consult the type mapping table — declared-type rendering (`cdef`), the
external type (`ctype`), and, when no enum reference short-circuits it, the
print-format fragment (`ctype_fprint`). -/
theorem unknown_tag_fails_at_type_rendering (f : KsyStructField)
    (h1 : f.type ∉ KSY_BYTESWAPPABLE) (h2 : f.type ≠ "str") :
    f.cdef = none ∧ f.ctype = none ∧ (f.enum = none → f.ctype_fprint = none) := by
  simp only [KSY_BYTESWAPPABLE, List.mem_cons, List.not_mem_nil, or_false] at h1
  push_neg at h1
  obtain ⟨h3, h4, h5, h6, h7, h8, h9, h10, h11, h12⟩ := h1
  have ht : KSY2C_TYPE f.type = none := by
    unfold KSY2C_TYPE
    simp [h3, h4, h5, h6, h7, h8, h9, h10, h11, h12]
  have hp : KSY2C_FPRINT f.type = none := by
    unfold KSY2C_FPRINT
    simp [h3, h4, h5, h6, h7, h8, h9, h10, h11, h12]
  refine ⟨?_, ?_, ?_⟩
  · unfold KsyStructField.cdef
    cases f.arr_len <;> simp [h2, ht]
  · unfold KsyStructField.ctype
    cases f.arr_len <;> simp [h2, ht]
  · intro he
    unfold KsyStructField.ctype_fprint
    cases f.arr_len <;> simp [h2, ht, hp, he]

/-- C2 witness: the amended theorem applied to the concrete field with the
unrecognized tag `"q4"`. -/
theorem unknown_tag_fails_at_type_rendering_witness :
    (("q4" : String) ∉ KSY_BYTESWAPPABLE ∧ ("q4" : String) ≠ "str") ∧
    (KsyStructField.cdef { name := "x", type := "q4" } = none ∧
     KsyStructField.ctype { name := "x", type := "q4" } = none ∧
     (({ name := "x", type := "q4" } : KsyStructField).enum = none →
       KsyStructField.ctype_fprint { name := "x", type := "q4" } = none)) :=
  ⟨by decide, unknown_tag_fails_at_type_rendering { name := "x", type := "q4" }
    (by decide) (by decide)⟩

/-- C3 counterexample: the constructor branches on the presence of the
`repeat` key, not of `repeat-expr`; an entry carrying a `repeat-expr`
repetition count but no `repeat` key is constructed as a plain scalar with
no `array_length` (the claim asserts `array_length` is set from the
present `repeat-expr`). -/
theorem ofEntry_repeatExpr_without_repeat_ignored :
    KsyStructField.ofEntry { id := "x", type := some "u4", repeatExpr := some 3 } =
      some { name := "x", type := "u4" } ∧
    ({ id := "x", type := some "u4", repeatExpr := some 3 } : KsyFieldEntry).repeatExpr =
      some 3 ∧
    ({ name := "x", type := "u4" } : KsyStructField).arr_len ≠ some 3 := by
  decide

/-- C3 (amended): `KsyStructField` construction sets exactly these
attributes — no explicit type defaults the type to the 1-byte unsigned tag
with `array_length` from the declared size; the string tag sets
`string_length` from the declared size; otherwise, when the `repeat` key is
present, `array_length` is set from the `repeat-expr` value (construction
errors when `repeat-expr` is absent); otherwise the field is a plain
scalar with neither length set.  `enum` and `doc` are copied when
present. -/
theorem ofEntry_attributes (e : KsyFieldEntry) (f : KsyStructField)
    (h : KsyStructField.ofEntry e = some f) :
    f.name = e.id ∧ f.type = e.type.getD "u1" ∧ f.enum = e.enum ∧ f.doc = e.doc ∧
    f.str_len = (if e.type = some "str" then e.size else none) ∧
    f.arr_len = (if e.type = none then e.size
                 else if e.type = some "str" then none
                 else if e.hasRepeat then e.repeatExpr else none) := by
  unfold KsyStructField.ofEntry at h
  cases he : e.type with
  | none =>
    cases hs : e.size with
    | none => simp [he, hs] at h
    | some sz =>
      simp only [he, hs, Option.isNone_none, if_true, Option.map_some', Option.some.injEq] at h
      subst h
      simp [he, hs]
  | some t =>
    by_cases hstr : t = "str"
    · subst hstr
      cases hs : e.size with
      | none => simp [he, hs] at h
      | some sz =>
        simp only [he, hs, Option.isNone_some, Bool.false_eq_true, if_false, Option.getD_some,
          if_true, Option.map_some', Option.some.injEq] at h
        subst h
        simp [he, hs]
    · by_cases hrep : e.hasRepeat = true
      · cases hr : e.repeatExpr with
        | none => simp [he, hstr, hrep, hr] at h
        | some r =>
          simp only [he, hstr, hrep, hr, Option.isNone_some, Bool.false_eq_true, if_false,
            Option.getD_some, if_true, Option.map_some', Option.some.injEq] at h
          subst h
          simp [he, hstr, hrep, hr]
      · simp only [he, hstr, hrep, Option.isNone_some, Bool.false_eq_true, if_false,
          Option.getD_some, Option.some.injEq] at h
        subst h
        simp [he, hstr, hrep]

/-- C3 witness: the amended theorem applied to a concrete untyped entry
with a declared size (opaque byte array case). -/
theorem ofEntry_attributes_witness :
    KsyStructField.ofEntry { id := "magic", size := some 4, doc := some "d" } =
      some { name := "magic", type := "u1", arr_len := some 4, doc := some "d" } ∧
    ({ name := "magic", type := "u1", arr_len := some 4, doc := some "d" } : KsyStructField).name =
        ({ id := "magic", size := some 4, doc := some "d" } : KsyFieldEntry).id ∧
    ({ name := "magic", type := "u1", arr_len := some 4, doc := some "d" } : KsyStructField).type =
        "u1" ∧
    ({ name := "magic", type := "u1", arr_len := some 4, doc := some "d" } : KsyStructField).arr_len =
        some 4 := by
  have h := ofEntry_attributes { id := "magic", size := some 4, doc := some "d" }
    { name := "magic", type := "u1", arr_len := some 4, doc := some "d" } (by decide)
  exact ⟨by decide, h.1, h.2.1.trans (by decide), h.2.2.2.2.2.trans (by decide)⟩

/-- C4 counterexample: a constructible field with `array_length = 4` that
also carries an enum reference (an untyped sized entry with an `enum` key);
its print-format fragment is the enum fragment `"%s (%i)"`, which contains
zero repetitions of the field's scalar format specifier `"%u"`, not four
(the claim asserts exactly `array_length` repetitions for every field with
an `array_length`). -/
theorem array_enum_field_fragment_lacks_repetitions :
    KsyStructField.ofEntry { id := "flags", size := some 4, enum := some "color" } =
      some { name := "flags", type := "u1", arr_len := some 4, enum := some "color" } ∧
    KsyStructField.ctype_fprint
        { name := "flags", type := "u1", arr_len := some 4, enum := some "color" } =
      some "%s (%i)" ∧
    KSY2C_FPRINT "u1" = some "%u" ∧
    countOccs "%u".toList "%s (%i)".toList = 0 := by
  decide

/-- C4 (amended): for every field with `array_length = k`, **no enum
reference** (an enum reference makes the fragment `"%s (%i)"` instead) and
a tag mapped by the format table, the print-format fragment is the
bracketed comma-join of exactly `k` repetitions of the field's scalar
format specifier; and when the field is swap-eligible with byte width
`nb ≠ 1`, the byte-swap generator's contribution for it is exactly one
loop statement performing `k` element-wise swaps with the `nb * 8`-bit
primitive. -/
theorem array_field_fragment_and_swap_count
    (f : KsyStructField) (k : Nat) (sp : String)
    (ha : f.arr_len = some k) (he : f.enum = none) (hm : KSY2C_FPRINT f.type = some sp) :
    f.ctype_fprint =
      some ("[ " ++ String.intercalate ", " (List.replicate k sp) ++ " ]") ∧
    (List.replicate k sp).length = k ∧
    (∀ nb, f.needs_byteswap = true → f.nbytes = some nb → nb ≠ 1 →
      swap_stmt_of_field f = some (.loop f.name k (nb * 8)) ∧
      (SwapStmt.loop f.name k (nb * 8)).elemSwaps = k) := by
  have hstr : f.type ≠ "str" := by
    intro hh
    rw [hh, show KSY2C_FPRINT "str" = none from by decide] at hm
    exact Option.noConfusion hm
  refine ⟨?_, List.length_replicate k sp, ?_⟩
  · unfold KsyStructField.ctype_fprint
    rw [he]
    simp only [Option.isSome_none, Bool.false_eq_true, if_false, hstr, ha, hm,
      Option.map_some']
    have : (List.range k).map (fun _ => sp) = List.replicate k sp := by
      rw [List.map_const', List.length_range]
    rw [this]
  · intro nb hsw hnb hne
    refine ⟨?_, rfl⟩
    unfold swap_stmt_of_field
    rw [hsw, hnb, ha]
    simp [hne]

/-- C4 witness: the amended theorem applied to the concrete field
`pixels : u4[4]` — the fragment is four comma-joined `%u` specifiers and
the byte-swap contribution is one 4-iteration loop of 32-bit swaps. -/
theorem array_field_fragment_and_swap_count_witness :
    KsyStructField.ctype_fprint { name := "pixels", type := "u4", arr_len := some 4 } =
      some "[ %u, %u, %u, %u ]" ∧
    swap_stmt_of_field { name := "pixels", type := "u4", arr_len := some 4 } =
      some (.loop "pixels" 4 32) ∧
    (SwapStmt.loop "pixels" 4 32).elemSwaps = 4 := by
  have h := array_field_fragment_and_swap_count
    { name := "pixels", type := "u4", arr_len := some 4 } 4 "%u" rfl rfl (by decide)
  have hs := h.2.2 4 (by decide) (by decide) (by decide)
  exact ⟨h.1.trans (by decide), hs.1, hs.2⟩

theorem find?_pair_of_nodup {l : List KsyEnumValue} {v : KsyEnumValue}
    (hn : (l.map KsyEnumValue.var).Nodup) (hv : v ∈ l) :
    (l.map fun u => (u.var, u.value)).find? (fun t => t.1 = v.var) =
      some (v.var, v.value) := by
  rw [find?_map_eq]
  have hpred : (fun x : KsyEnumValue => decide ((x.var, x.value).1 = v.var)) =
      fun x : KsyEnumValue => decide (x.var = v.var) := rfl
  rw [hpred, find?_eq_some_self_of_nodup_map KsyEnumValue.var hn hv]
  rfl

theorem find?_pair_eq_none {l : List KsyEnumValue} {s : String}
    (hs : s ∉ l.map KsyEnumValue.var) :
    (l.map fun u => (u.var, u.value)).find? (fun t => t.1 = s) = none := by
  rw [List.find?_eq_none]
  intro t ht
  obtain ⟨u, hu, rfl⟩ := List.mem_map.mp ht
  simp only [decide_eq_true_eq]
  intro heq
  exact hs (heq ▸ List.mem_map_of_mem KsyEnumValue.var hu)

theorem CFromName.eval_some (fn : CFromName) (s : String) :
    fn.eval (some s) =
      match fn.tests.find? (fun t => t.1 = s) with
      | some t => t.2
      | none => fn.fallback := rfl

/-- C5 counterexample: for the concrete two-value enum `color`
(`RED = 0`, `GREEN = 1`) the generated reverse-lookup chain contains two
string-equality tests against the first declared name `RED`, not exactly
one (the leading `if` tests `values[0]` and the following `else if` chain
iterates over all values, the first one again). -/
theorem from_name_first_name_tested_twice :
    KsyEnum.cdynamic_from_name
        { name := "color",
          values := [{ name := "color", var := "RED", value := 0 },
                     { name := "color", var := "GREEN", value := 1 }] } =
      some { nullGuard := -1, tests := [("RED", 0), ("RED", 0), ("GREEN", 1)], fallback := -1 } ∧
    List.countP (fun t => t.1 = "RED")
        ([("RED", 0), ("RED", 0), ("GREEN", 1)] : List (String × Int)) = 2 := by
  decide

/-- C5 (amended): for every non-empty enum with unique identifiers, the
generated reverse-lookup body is a guard returning `-1` for null input
followed by a linear chain of exact string-equality tests that covers the
declared names in declaration order with the **first declared name tested
twice** (once by the leading `if`, once again at the head of the `else if`
chain) and every other name exactly once, returning the matching declared
value, and `-1` when no name matches. -/
theorem cdynamic_from_name_structure (e : KsyEnum) (fn : CFromName)
    (h : e.cdynamic_from_name = some fn)
    (hn : (e.values.map KsyEnumValue.var).Nodup) :
    fn.nullGuard = -1 ∧ fn.fallback = -1 ∧ fn.eval none = -1 ∧
    (∀ v ∈ e.values,
      fn.tests.countP (fun t => t.1 = v.var) =
        (if (e.values.map KsyEnumValue.var).head? = some v.var then 2 else 1) ∧
      fn.eval (some v.var) = v.value) ∧
    (∀ s, s ∉ e.values.map KsyEnumValue.var → fn.eval (some s) = -1) := by
  cases hv : e.values with
  | nil => simp [KsyEnum.cdynamic_from_name, hv] at h
  | cons v0 rest =>
    rw [hv] at hn
    have hfn : fn =
        { nullGuard := -1,
          tests := (v0.var, v0.value) :: (v0 :: rest).map fun v => (v.var, v.value),
          fallback := -1 } := by
      simp only [KsyEnum.cdynamic_from_name, hv, Option.some.injEq] at h
      exact h.symm
    subst hfn
    refine ⟨rfl, rfl, rfl, ?_, ?_⟩
    · intro v hv2
      have hmem : v.var ∈ (v0 :: rest).map KsyEnumValue.var :=
        List.mem_map_of_mem KsyEnumValue.var hv2
      constructor
      · rw [List.countP_cons, List.countP_map]
        have hpred : ((fun t : String × Int => decide (t.1 = v.var)) ∘
            fun u : KsyEnumValue => (u.var, u.value)) =
            fun x : KsyEnumValue => decide (x.var = v.var) := rfl
        rw [hpred, countP_eq_ite_of_nodup_map KsyEnumValue.var v.var hn, if_pos hmem,
          List.map_cons, List.head?_cons]
        by_cases hvv : v0.var = v.var
        · simp [hvv]
        · simp [hvv]
      · by_cases hvv : v0.var = v.var
        · have hv0 : v0 = v :=
            List.inj_on_of_nodup_map hn (List.mem_cons_self v0 rest) hv2 hvv
          subst hv0
          simp [CFromName.eval_some, List.find?_cons]
        · have hd : (decide ((v0.var, v0.value).1 = v.var)) = false := by
            simp [hvv]
          simp only [CFromName.eval_some, List.find?_cons, hd]
          rw [find?_pair_of_nodup hn hv2]
    · intro s hs
      have h0 : (decide ((v0.var, v0.value).1 = s)) = false := by
        simp only [decide_eq_false_iff_not]
        intro heq
        exact hs (heq ▸ List.mem_map_of_mem KsyEnumValue.var (List.mem_cons_self v0 rest))
      simp only [CFromName.eval_some, List.find?_cons, h0]
      rw [find?_pair_eq_none hs]

/-- C5 witness: the amended theorem applied to the concrete `color` enum —
`"GREEN"` resolves to `1`, the first name `"RED"` is tested twice,
`"PURPLE"` falls through to `-1`, and a null input returns `-1`. -/
theorem cdynamic_from_name_structure_witness :
    KsyEnum.cdynamic_from_name
        { name := "color",
          values := [{ name := "color", var := "RED", value := 0 },
                     { name := "color", var := "GREEN", value := 1 },
                     { name := "color", var := "BLUE", value := 2 }] } =
      some { nullGuard := -1,
             tests := [("RED", 0), ("RED", 0), ("GREEN", 1), ("BLUE", 2)],
             fallback := -1 } ∧
    CFromName.eval
        { nullGuard := -1,
          tests := [("RED", 0), ("RED", 0), ("GREEN", 1), ("BLUE", 2)],
          fallback := -1 } (some "GREEN") = 1 ∧
    List.countP (fun t => t.1 = "RED")
        ([("RED", 0), ("RED", 0), ("GREEN", 1), ("BLUE", 2)] : List (String × Int)) = 2 ∧
    CFromName.eval
        { nullGuard := -1,
          tests := [("RED", 0), ("RED", 0), ("GREEN", 1), ("BLUE", 2)],
          fallback := -1 } (some "PURPLE") = -1 ∧
    CFromName.eval
        { nullGuard := -1,
          tests := [("RED", 0), ("RED", 0), ("GREEN", 1), ("BLUE", 2)],
          fallback := -1 } none = -1 := by
  have h := cdynamic_from_name_structure
    { name := "color",
      values := [{ name := "color", var := "RED", value := 0 },
                 { name := "color", var := "GREEN", value := 1 },
                 { name := "color", var := "BLUE", value := 2 }] }
    { nullGuard := -1,
      tests := [("RED", 0), ("RED", 0), ("GREEN", 1), ("BLUE", 2)],
      fallback := -1 }
    (by decide) (by decide)
  refine ⟨by decide, ?_, ?_, ?_, h.2.2.1⟩
  · exact (h.2.2.2.1 { name := "color", var := "GREEN", value := 1 } (by decide)).2
  · exact ((h.2.2.2.1 { name := "color", var := "RED", value := 0 } (by decide)).1).trans
      (by decide)
  · exact h.2.2.2.2 "PURPLE" (by decide)

theorem foldl_append_concatAll (g : String → String) :
    ∀ (toks : List String) (acc : String),
      toks.foldl (fun a t => a ++ g t ++ " ") acc =
        acc ++ concatAll (toks.map fun t => g t ++ " ") := by
  intro toks
  induction toks with
  | nil => intro acc; simp [concatAll]
  | cons t rest ih =>
    intro acc
    rw [List.foldl_cons, ih, List.map_cons]
    show acc ++ g t ++ " " ++ concatAll (rest.map fun t => g t ++ " ") =
      acc ++ (g t ++ " " ++ concatAll (rest.map fun t => g t ++ " "))
    simp [String.append_assoc]


/-- C6 counterexample: `cexpr` tokenizes with `split(" ")` (the single
space character), not on whitespace: for the stored expression
`"1\t+ 2"` (a tab inside the first token) the code passes the unsplit
token `"1\t+"` through verbatim, while tokenizing on whitespace would
classify `"1"` as an integer literal and yield `"1 + 2"`. -/
theorem cexpr_space_vs_whitespace_tokenization :
    KsyStructCompField.cexpr { name := "c", expr := some "1\t+ 2" }
        { name := "hdr", seq := [{ id := "a", type := some "u4" }], instances := [] } =
      some "1\t+ 2" ∧
    KsyStructCompField.cexprSpecWhitespace { name := "c", expr := some "1\t+ 2" }
        { name := "hdr", seq := [{ id := "a", type := some "u4" }], instances := [] } =
      some "1 + 2" ∧
    ("1\t+ 2" : String) ≠ "1 + 2" := by
  decide

/-- C6 (amended): `cexpr` tokenizes the stored expression on the single
space character (not the whitespace class; consecutive spaces yield empty
pass-through tokens), classifies each token with precedence (a) declared
sequence-field name → member accessor, (b) else integer literal → its
decimal value, (c) else verbatim, appends a single space after every
classified token, concatenates in order and strips the result. -/
theorem cexpr_tokenization (c : KsyStructCompField) (s : KsyStruct)
    (e : String) (fields : List KsyStructField)
    (hc : c.expr = some e) (hf : s.iter_fields = some fields) :
    c.cexpr s =
      some (pyStrip (concatAll ((pySplitSpace e).map
        fun tok =>
          classify_token (cn_arg s.name) (fields.map KsyStructField.name) tok ++ " "))) ∧
    (∀ tok, tok ∈ fields.map KsyStructField.name →
      classify_token (cn_arg s.name) (fields.map KsyStructField.name) tok =
        cn_arg s.name ++ "->" ++ tok) ∧
    (∀ tok, tok ∉ fields.map KsyStructField.name → is_int_literal tok = true →
      classify_token (cn_arg s.name) (fields.map KsyStructField.name) tok =
        toString (int_literal tok)) ∧
    (∀ tok, tok ∉ fields.map KsyStructField.name → is_int_literal tok = false →
      classify_token (cn_arg s.name) (fields.map KsyStructField.name) tok = tok) := by
  refine ⟨?_, ?_, ?_, ?_⟩
  · unfold KsyStructCompField.cexpr
    rw [hc, hf]
    simp only [Option.bind_eq_bind, Option.some_bind, Option.pure_def, Option.some.injEq]
    have hstep : (fun (acc tok : String) =>
        acc ++
          (if tok ∈ fields.map KsyStructField.name then cn_arg s.name ++ "->" ++ tok
           else if is_int_literal tok then toString (int_literal tok)
           else tok) ++
          " ") =
        fun (acc tok : String) =>
          acc ++ classify_token (cn_arg s.name) (fields.map KsyStructField.name) tok ++ " " :=
      rfl
    rw [hstep, foldl_append_concatAll, String.empty_append]
  · intro tok h1
    simp [classify_token, h1]
  · intro tok h1 h2
    simp [classify_token, h1, h2]
  · intro tok h1 h2
    simp [classify_token, h1, h2]

/-- C6 witness: the amended theorem applied to the concrete expression
`"a + 0x1f"` over a struct with sequence field `a` — the field token
becomes an accessor, the hex literal is re-emitted in decimal, the
operator passes through, and the pieces are joined by single spaces. -/
theorem cexpr_tokenization_witness :
    (({ name := "c", expr := some "a + 0x1f" } : KsyStructCompField).expr =
        some "a + 0x1f" ∧
      KsyStruct.iter_fields
          { name := "hdr", seq := [{ id := "a", type := some "u4" }], instances := [] } =
        some [{ name := "a", type := "u4" }]) ∧
    KsyStructCompField.cexpr { name := "c", expr := some "a + 0x1f" }
        { name := "hdr", seq := [{ id := "a", type := some "u4" }], instances := [] } =
      some "hdr->a + 31" := by
  have h := cexpr_tokenization { name := "c", expr := some "a + 0x1f" }
    { name := "hdr", seq := [{ id := "a", type := some "u4" }], instances := [] }
    "a + 0x1f" [{ name := "a", type := "u4" }] rfl (by decide)
  exact ⟨⟨rfl, by decide⟩, h.1.trans (by decide)⟩

theorem swap_stmt_of_field_fieldName {f : KsyStructField} {st : SwapStmt}
    (h : swap_stmt_of_field f = some st) : st.fieldName = f.name := by
  unfold swap_stmt_of_field at h
  split at h
  · split at h
    · cases h
    · split at h
      · cases h
      · split at h
        · cases h; rfl
        · cases h; rfl
  · cases h

theorem swap_stmt_none_of_str (f : KsyStructField) (h : f.type = "str") :
    swap_stmt_of_field f = none := by
  have hb : f.needs_byteswap = false := by
    unfold KsyStructField.needs_byteswap
    rw [h]
    decide
  unfold swap_stmt_of_field
  rw [hb]
  simp

theorem swap_stmt_none_of_nbytes_one (f : KsyStructField) (h : f.nbytes = some 1) :
    swap_stmt_of_field f = none := by
  unfold swap_stmt_of_field
  rw [h]
  split <;> simp

theorem filterMap_map_sublist {α β γ : Type _} (g : α → Option β) (nA : α → γ) (nB : β → γ)
    (hpres : ∀ a b, g a = some b → nB b = nA a) :
    ∀ l : List α, List.Sublist ((l.filterMap g).map nB) (l.map nA) := by
  intro l
  induction l with
  | nil => simp
  | cons a rest ih =>
    rw [List.filterMap_cons, List.map_cons]
    cases hga : g a with
    | none => exact ih.cons (nA a)
    | some b =>
      rw [List.map_cons, hpres a b hga]
      exact ih.cons₂ (nA a)

/-- C7: in the generated byte-swap body, string fields and 1-byte numeric
fields (including untyped entries defaulted to 1-byte opaque byte arrays)
contribute no swap statement; every swap-eligible scalar field of byte
width `nb ≠ 1` contributes exactly one in-place swap assignment using the
`nb * 8`-bit primitive; and the emitted statements are the per-field
contributions in field declaration order (hence their field names form an
order-preserving sublist of the declaration order). -/
theorem build_byteswap_struct_props
    (s : KsyStruct) (fs : List KsyStructField) (stmts : List SwapStmt)
    (hf : s.iter_fields = some fs) (hb : build_byteswap_struct s = some stmts) :
    stmts = fs.filterMap swap_stmt_of_field ∧
    (∀ f : KsyStructField, f.type = "str" → swap_stmt_of_field f = none) ∧
    (∀ f : KsyStructField, f.nbytes = some 1 → swap_stmt_of_field f = none) ∧
    (∀ e : KsyFieldEntry, e.type = none → ∀ f', KsyStructField.ofEntry e = some f' →
      swap_stmt_of_field f' = none) ∧
    (∀ (f : KsyStructField) (nb : Nat), f.needs_byteswap = true → f.nbytes = some nb →
      nb ≠ 1 → f.arr_len = none →
      swap_stmt_of_field f = some (.scalar f.name (nb * 8))) ∧
    List.Sublist (stmts.map SwapStmt.fieldName) (fs.map KsyStructField.name) := by
  have hstmts : stmts = fs.filterMap swap_stmt_of_field := by
    unfold build_byteswap_struct at hb
    rw [hf] at hb
    simp only [Option.bind_eq_bind, Option.some_bind, Option.pure_def,
      Option.some.injEq] at hb
    exact hb.symm
  refine ⟨hstmts, fun f h => swap_stmt_none_of_str f h,
    fun f h => swap_stmt_none_of_nbytes_one f h, ?_, ?_, ?_⟩
  · intro e he f' h'
    unfold KsyStructField.ofEntry at h'
    rw [he] at h'
    simp only [Option.isNone_none, if_true] at h'
    cases hs : e.size with
    | none => rw [hs] at h'; cases h'
    | some sz =>
      rw [hs] at h'
      simp only [Option.map_some', Option.some.injEq] at h'
      subst h'
      exact swap_stmt_none_of_nbytes_one _ rfl
  · intro f nb hsw hnb hne harr
    unfold swap_stmt_of_field
    rw [hsw, hnb, harr]
    simp [hne]
  · rw [hstmts]
    exact filterMap_map_sublist swap_stmt_of_field KsyStructField.name SwapStmt.fieldName
      (fun a b h => swap_stmt_of_field_fieldName h) fs

/-- C7 witness: for the concrete struct with fields `crc : u4`,
`pixels : u4[4]`, `tag : str[4]`, `magic` (untyped, size 4), the byte-swap
body is exactly one scalar 32-bit swap for `crc` followed by one
4-iteration loop for `pixels`; the string and the defaulted 1-byte array
contribute nothing, and emission follows declaration order. -/
theorem build_byteswap_struct_props_witness :
    build_byteswap_struct
        { name := "hdr",
          seq := [{ id := "crc", type := some "u4" },
                  { id := "pixels", type := some "u4", hasRepeat := true,
                    repeatExpr := some 4 },
                  { id := "tag", type := some "str", size := some 4 },
                  { id := "magic", size := some 4 }],
          instances := [] } =
      some [.scalar "crc" 32, .loop "pixels" 4 32] ∧
    swap_stmt_of_field { name := "tag", type := "str", str_len := some 4 } = none ∧
    swap_stmt_of_field { name := "magic", type := "u1", arr_len := some 4 } = none ∧
    swap_stmt_of_field { name := "crc", type := "u4" } = some (.scalar "crc" 32) ∧
    List.Sublist
      (List.map SwapStmt.fieldName [.scalar "crc" 32, .loop "pixels" 4 32])
      (List.map KsyStructField.name
        [{ name := "crc", type := "u4" },
         { name := "pixels", type := "u4", arr_len := some 4 },
         { name := "tag", type := "str", str_len := some 4 },
         { name := "magic", type := "u1", arr_len := some 4 }]) := by
  have h := build_byteswap_struct_props
    { name := "hdr",
      seq := [{ id := "crc", type := some "u4" },
              { id := "pixels", type := some "u4", hasRepeat := true, repeatExpr := some 4 },
              { id := "tag", type := some "str", size := some 4 },
              { id := "magic", size := some 4 }],
      instances := [] }
    [{ name := "crc", type := "u4" },
     { name := "pixels", type := "u4", arr_len := some 4 },
     { name := "tag", type := "str", str_len := some 4 },
     { name := "magic", type := "u1", arr_len := some 4 }]
    [.scalar "crc" 32, .loop "pixels" 4 32]
    (by decide) (by decide)
  refine ⟨by decide, h.2.1 _ rfl, h.2.2.1 _ rfl, ?_, ?_⟩
  · exact (h.2.2.2.2.1 { name := "crc", type := "u4" } 4 (by decide) rfl (by decide) rfl).trans
      (by decide)
  · exact h.2.2.2.2.2

/-- C8: reverse-lookup generation accesses the first declared enum value
unconditionally, so it fails exactly for an enum with zero values and
succeeds for every enum with at least one value (the error branch is
unreachable under the at-least-one-value precondition). -/
theorem cdynamic_from_name_none_iff (e : KsyEnum) :
    e.cdynamic_from_name = none ↔ e.values = [] := by
  cases hv : e.values with
  | nil => simp [KsyEnum.cdynamic_from_name, hv]
  | cons v0 rest => simp [KsyEnum.cdynamic_from_name, hv]

theorem ctype_fprint_isSome_of_wf (f : KsyStructField)
    (h : f.type ∈ KSY_BYTESWAPPABLE ∨ f.type = "str") :
    (f.ctype_fprint).isSome = true := by
  unfold KsyStructField.ctype_fprint
  by_cases he : f.enum.isSome
  · simp [he]
  · rcases h with ht | ht
    · have hstr : f.type ≠ "str" := by
        intro hh
        rw [hh] at ht
        exact absurd ht (by decide)
      have hp : (KSY2C_FPRINT f.type).isSome = true := by
        simp only [KSY_BYTESWAPPABLE, List.mem_cons, List.not_mem_nil, or_false] at ht
        rcases ht with h1|h1|h1|h1|h1|h1|h1|h1|h1|h1 <;> rw [h1] <;> decide
      cases ha : f.arr_len <;> simp [he, hstr, ha, hp]
    · simp [he, ht]

theorem print_row_of_field_isSome (sn : String) (f : KsyStructField)
    (h : (f.ctype_fprint).isSome = true) : (print_row_of_field sn f).isSome = true := by
  unfold print_row_of_field
  obtain ⟨fr, hfr⟩ := Option.isSome_iff_exists.mp h
  rw [hfr]
  rfl

/-- C9: the debug-printer generator requires at least one row — for a
struct whose sequence fields are all well-formed (recognized numeric tag
or the string tag, the spec's `StructField` invariant), generation
succeeds exactly when the struct has at least one sequence field or at
least one computed field; with zero of both, the maximum label width is
taken over an empty row table and generation errors. -/
theorem build_print_struct_isSome_iff
    (s : KsyStruct) (fs : List KsyStructField)
    (hf : s.iter_fields = some fs)
    (hwf : ∀ f ∈ fs, f.type ∈ KSY_BYTESWAPPABLE ∨ f.type = "str") :
    (build_print_struct s).isSome = true ↔ (s.seq ≠ [] ∨ s.instances ≠ []) := by
  have hrow : ∀ f ∈ fs, ((print_row_of_field s.name) f).isSome = true := fun f hm =>
    print_row_of_field_isSome s.name f (ctype_fprint_isSome_of_wf f (hwf f hm))
  obtain ⟨rows, hrows⟩ := mapOpt_isSome_of_forall hrow
  have hlen : rows.length = fs.length := mapOpt_length _ hrows
  have hf' : mapOpt KsyStructField.ofEntry s.seq = some fs := hf
  have hseqlen : fs.length = s.seq.length := mapOpt_length _ hf'
  have hiff : (build_print_struct s).isSome = true ↔
      rows ++ (s.iter_comp_fields).map (print_row_of_comp s.name) ≠ [] := by
    unfold build_print_struct
    rw [hf]
    simp only [Option.bind_eq_bind, Option.some_bind]
    rw [hrows]
    simp only [Option.some_bind]
    cases htab : rows ++ (s.iter_comp_fields).map (print_row_of_comp s.name) with
    | nil => simp [pyMax]
    | cons r rest => simp [pyMax]
  rw [hiff]
  constructor
  · intro htab
    by_contra hcon
    push_neg at hcon
    obtain ⟨hseq, hinst⟩ := hcon
    apply htab
    have hfs : fs.length = 0 := by rw [hseqlen, hseq]; rfl
    have hrows0 : rows = [] := List.length_eq_zero.mp (by rw [hlen, hfs])
    rw [hrows0]
    simp [KsyStruct.iter_comp_fields, hinst]
  · intro hne hh
    rcases List.append_eq_nil.mp hh with ⟨h1, h2⟩
    rcases hne with hs1 | hs2
    · apply hs1
      have h0 : s.seq.length = 0 := by rw [← hseqlen, ← hlen, h1]; rfl
      exact List.length_eq_zero.mp h0
    · apply hs2
      have h3 : s.iter_comp_fields = [] := List.map_eq_nil_iff.mp h2
      unfold KsyStruct.iter_comp_fields at h3
      exact List.map_eq_nil_iff.mp h3

/-- C9 witness: the theorem applied to a concrete one-field struct (the
printer generates) and, for the degenerate direction, the concrete
evaluation showing the zero-field zero-instance struct errors. -/
theorem build_print_struct_isSome_iff_witness :
    KsyStruct.iter_fields
        { name := "hdr", seq := [{ id := "a", type := some "u4" }], instances := [] } =
      some [{ name := "a", type := "u4" }] ∧
    (build_print_struct
        { name := "hdr", seq := [{ id := "a", type := some "u4" }], instances := [] }).isSome =
      true ∧
    build_print_struct { name := "empty", seq := [], instances := [] } = none := by
  refine ⟨by decide, ?_, by decide⟩
  exact (build_print_struct_isSome_iff
    { name := "hdr", seq := [{ id := "a", type := some "u4" }], instances := [] }
    [{ name := "a", type := "u4" }] (by decide) (by decide)).mpr
    (Or.inl (by decide))

/-- C10 counterexample: for the concrete struct with one computed field
`checksum` whose entry has no `value` key, the debug printer succeeds
(it references the accessor by name and never consults the expression),
even though `cexpr` fails — the claim asserts the debug printer errors
too. -/
theorem printer_succeeds_for_valueless_comp_field :
    KsyStruct.iter_comp_fields { name := "hdr", seq := [], instances := [("checksum", {})] } =
      [{ name := "checksum" }] ∧
    ({ name := "checksum" } : KsyStructCompField).expr = none ∧
    (build_print_struct
        { name := "hdr", seq := [], instances := [("checksum", {})] }).isSome = true ∧
    KsyStructCompField.cexpr { name := "checksum" }
        { name := "hdr", seq := [], instances := [("checksum", {})] } = none := by
  decide

/-- C10 (amended): a computed field constructed from an entry without a
`value` key stores no expression, and `cexpr` — hence accessor-function
generation (`build_comp_field_funcs`) — errors rather than emitting
anything; the debug printer, which does not consult the expression, is
not affected. -/
theorem comp_field_without_value (s : KsyStruct) (c : KsyStructCompField)
    (hc : c ∈ s.iter_comp_fields) (he : c.expr = none) :
    c.cexpr s = none ∧ build_comp_field_funcs s = none := by
  have h1 : c.cexpr s = none := by
    unfold KsyStructCompField.cexpr
    rw [he]
    rfl
  refine ⟨h1, ?_⟩
  unfold build_comp_field_funcs
  exact mapOpt_eq_none_of_mem hc (by rw [Option.bind_eq_bind, h1]; rfl)

/-- C10 witness: the amended theorem applied to the concrete valueless
computed field `checksum`. -/
theorem comp_field_without_value_witness :
    ({ name := "checksum" } : KsyStructCompField) ∈
        KsyStruct.iter_comp_fields
          { name := "hdr", seq := [], instances := [("checksum", {})] } ∧
    KsyStructCompField.cexpr { name := "checksum" }
        { name := "hdr", seq := [], instances := [("checksum", {})] } = none ∧
    build_comp_field_funcs { name := "hdr", seq := [], instances := [("checksum", {})] } =
      none := by
  have h := comp_field_without_value
    { name := "hdr", seq := [], instances := [("checksum", {})] }
    { name := "checksum" } (by decide) rfl
  exact ⟨by decide, h.1, h.2⟩
